import Mathlib

/-!
Verification of the pdfcpu snapshot (github.com/denisbetsi/pdfcpu).

Shallow embedding of the parts of the code that the checked claims are
about:

* the document-info validator of the `validate` package
  (`validateDocumentInfoObject`, `validateInfoDictTrapped`, ...);
* the `api` package operations `SetPermissionsFile`, `writePDFSequence`
  (split), `RemovePages`, `Validate` / `ValidateFile`, `Merge`;
* the `cli` package `Process` panic recovery;
* the command handlers `handleSplitCommand` and `handleRotateCommand`
  of the pdfcpu command.

Go machine integers are modelled as `Int` restricted to the 64-bit
range where overflow matters (`handleRotateCommand`'s `abs`); Go
integer division and remainder are `Int.tdiv` / `Int.tmod` (both
truncate toward zero, as Go does), and a Go division by zero is
modelled as an explicit panic outcome, never as a value.

Helpers of the core `pdfcpu` package whose source is not part of this
snapshot (the `XRefTable` dereference helpers, the selective writer,
`MergeXRefTables`) are modelled from the specification; each such
definition carries a doc comment saying so.
-/

namespace Pdfcpu

/-! ## PDF objects and validation modes (data model for the validator) -/

/-- A direct PDF object, as needed by the document-info validator.
Indirect references are resolved by the dereference helpers in the real
code; the info-dict claims only concern direct values, so objects are
modelled already resolved. -/
inductive PdfObj where
  | null : PdfObj
  | boolean (b : Bool) : PdfObj
  | integer (i : Int) : PdfObj
  | name (s : String) : PdfObj
  | stringLit (s : String) : PdfObj
  | hexLit (s : String) : PdfObj
  deriving DecidableEq, Repr

/-- A PDF dictionary: finitely many key/value pairs.  Go iterates map
entries in unspecified order; the theorems below only use dictionaries
for which the validation outcome is order-independent. -/
abbrev Dict := List (String × PdfObj)

/-- The configuration's validation mode: `ValidationNone`,
`ValidationRelaxed`, `ValidationStrict`. -/
inductive ValidationMode where
  | vNone : ValidationMode
  | relaxed : ValidationMode
  | strict : ValidationMode
  deriving DecidableEq, Repr

/-- The slice of the `XRefTable` that the document-info validator
reads: the validation mode, the effective PDF version (scaled by ten:
`13` stands for PDF 1.3), the optional Info dictionary (already
dereferenced; `none` means the trailer has no `Info` entry) and whether
the catalog has a `PieceInfo` entry. -/
structure XRef where
  mode : ValidationMode
  version : Nat
  info : Option Dict
  catalogHasPieceInfo : Bool

/-- `pdf.MemberOf` from the core package: membership of a string in a
list of strings. -/
def MemberOf (s : String) (list : List String) : Bool :=
  list.contains s

/-- Modelled from the spec: "`Strict` enforces version gates" (§4.6) —
in strict mode an entry introduced after the document's version is an
error; relaxed mode does not enforce version gates. -/
def validateVersion (x : XRef) (sinceVersion : Nat) : Except String Unit :=
  if x.mode = .strict ∧ x.version < sinceVersion then
    .error "unsupported entry for this PDF version"
  else
    .ok ()

/-- Modelled from the spec: `XRefTable.DereferenceStringOrHexLiteral`
(core package, not in this snapshot) resolves the object and requires a
literal or hex string, gated on `sinceVersion`. -/
def DereferenceStringOrHexLiteral (x : XRef) (o : PdfObj) (sinceVersion : Nat) :
    Except String String :=
  match validateVersion x sinceVersion with
  | .error e => .error e
  | .ok _ =>
    match o with
    | .stringLit s => .ok s
    | .hexLit s => .ok s
    | _ => .error "not a string or hex literal"

/-- Modelled from the spec: `XRefTable.DereferenceName` (core package,
not in this snapshot) resolves the object, requires a name, applies the
given validation closure and is gated on `sinceVersion`. -/
def DereferenceName (x : XRef) (o : PdfObj) (sinceVersion : Nat)
    (validate : String → Bool) : Except String String :=
  match validateVersion x sinceVersion with
  | .error e => .error e
  | .ok _ =>
    match o with
    | .name s => if validate s then .ok s else .error ("invalid name: " ++ s)
    | _ => .error "not a name"

/-- Modelled from the spec: `XRefTable.DereferenceBoolean` (core
package, not in this snapshot) resolves the object and requires a
boolean, gated on `sinceVersion`. -/
def DereferenceBoolean (x : XRef) (o : PdfObj) (sinceVersion : Nat) :
    Except String Bool :=
  match validateVersion x sinceVersion with
  | .error e => .error e
  | .ok _ =>
    match o with
    | .boolean b => .ok b
    | _ => .error "not a boolean"

/-- Modelled from the spec: `XRefTable.Dereference` (core package, not
in this snapshot) only resolves the object, accepting any value. -/
def Dereference (o : PdfObj) : Except String PdfObj :=
  .ok o

/-- Modelled from the spec: `validateString` (validate package, not in
this snapshot) accepts any literal or hex string. -/
def validateString (o : PdfObj) : Except String String :=
  match o with
  | .stringLit s => .ok s
  | .hexLit s => .ok s
  | _ => .error "invalid string"

/-- Modelled from the spec: `validateDateObject` (validate package, not
in this snapshot) requires a literal string in PDF date syntax; the
date-syntax test itself is abstracted as the parameter `dateOk`. -/
def validateDateObject (dateOk : String → Bool) (o : PdfObj) :
    Except String String :=
  match o with
  | .stringLit s => if dateOk s then .ok s else .error "invalid date"
  | _ => .error "invalid date"

/-- `handleDefault` from the validate package: strict mode requires a
text string for unknown info-dict keys, relaxed mode accepts anything
that dereferences. -/
def handleDefault (x : XRef) (o : PdfObj) : Except String Unit :=
  if x.mode = .strict then
    match DereferenceStringOrHexLiteral x o 10 with
    | .error e => .error e
    | .ok _ => .ok ()
  else
    match Dereference o with
    | .error e => .error e
    | .ok _ => .ok ()

/-- `validateInfoDictDate` from the validate package: relaxed mode
accepts a plain string, otherwise the strict date check runs. -/
def validateInfoDictDate (dateOk : String → Bool) (x : XRef) (o : PdfObj) :
    Except String String :=
  if x.mode = .relaxed then validateString o else validateDateObject dateOk o

/-- `validateInfoDictTrapped` from the validate package: strict mode
validates a name in {True, False, Unknown}; relaxed mode extends the
name set by the lowercase spellings and falls back to a boolean when
the name test fails. -/
def validateInfoDictTrapped (o : PdfObj) (x : XRef) : Except String Unit :=
  let sinceVersion := 13
  let validate : String → Bool :=
    if x.mode = .relaxed then
      fun s => MemberOf s ["True", "False", "Unknown", "true", "false", "unknown"]
    else
      fun s => MemberOf s ["True", "False", "Unknown"]
  match DereferenceName x o sinceVersion validate with
  | .ok _ => .ok ()
  | .error e =>
    if x.mode = .relaxed then
      match DereferenceBoolean x o sinceVersion with
      | .ok _ => .ok ()
      | .error e2 => .error e2
    else
      .error e

/-- One iteration of `validateDocumentInfoDict`'s switch over the entry
key, validating a single info-dict entry. -/
def validateInfoDictEntry (dateOk : String → Bool) (x : XRef)
    (k : String) (v : PdfObj) : Except String Unit :=
  match k with
  | "Title" =>
    match DereferenceStringOrHexLiteral x v 11 with
    | .error e => .error e
    | .ok _ => .ok ()
  | "Author" =>
    match DereferenceStringOrHexLiteral x v 10 with
    | .error e => .error e
    | .ok _ => .ok ()
  | "Subject" =>
    match DereferenceStringOrHexLiteral x v 11 with
    | .error e => .error e
    | .ok _ => .ok ()
  | "Keywords" =>
    match DereferenceStringOrHexLiteral x v 11 with
    | .error e => .error e
    | .ok _ => .ok ()
  | "Creator" =>
    match DereferenceStringOrHexLiteral x v 10 with
    | .error e => .error e
    | .ok _ => .ok ()
  | "Producer" =>
    match DereferenceStringOrHexLiteral x v 10 with
    | .error e => .error e
    | .ok _ => .ok ()
  | "CreationDate" =>
    match validateInfoDictDate dateOk x v with
    | .error e => .error e
    | .ok _ => .ok ()
  | "ModDate" =>
    match validateInfoDictDate dateOk x v with
    | .error e => .error e
    | .ok _ => .ok ()
  | "Trapped" => validateInfoDictTrapped v x
  | _ => handleDefault x v

/-- The entry loop of `validateDocumentInfoDict`, threading the
`hasModDate` flag: the flag is set when a `ModDate` key is seen, and
the first failing entry aborts the walk. -/
def validateDocumentInfoDictLoop (dateOk : String → Bool) (x : XRef) :
    Bool → Dict → Except String Bool
  | hasModDate, [] => .ok hasModDate
  | hasModDate, (k, v) :: rest =>
    match validateInfoDictEntry dateOk x k v with
    | .error e => .error e
    | .ok _ => validateDocumentInfoDictLoop dateOk x (hasModDate || k == "ModDate") rest

/-- `validateDocumentInfoDict` from the validate package: walk all
entries of the (already dereferenced) info dictionary and report
whether a `ModDate` entry was present. -/
def validateDocumentInfoDict (dateOk : String → Bool) (x : XRef) (d : Dict) :
    Except String Bool :=
  validateDocumentInfoDictLoop dateOk x false d

/-- `XRefTable.CatalogHasPieceInfo` (core package): reports whether the
catalog has a `PieceInfo` entry; modelled as the stored flag. -/
def CatalogHasPieceInfo (x : XRef) : Except String Bool :=
  .ok x.catalogHasPieceInfo

/-- `validateDocumentInfoObject` from the validate package, translated
line by line: no Info entry means success; otherwise the info dict is
validated, and afterwards — in every validation mode — a catalog
`PieceInfo` entry without a `ModDate` key is a fatal error. -/
def validateDocumentInfoObject (dateOk : String → Bool) (x : XRef) :
    Except String Unit :=
  match x.info with
  | none => .ok ()
  | some d =>
    match validateDocumentInfoDict dateOk x d with
    | .error e => .error e
    | .ok hasModDate =>
      match CatalogHasPieceInfo x with
      | .error e => .error e
      | .ok hasPieceInfo =>
        if hasPieceInfo ∧ ¬hasModDate then
          .error "validateDocumentInfoObject: missing required entry ModDate"
        else
          .ok ()

/-! ## File-based operations: an abstract file system (C3, C9) -/

/-- The file system visible to the file-based api layer: a map from
file name to content (`none` = no such file). -/
abbrev FileSys := String → Option String

/-- Point update of a file system (`some` = create/overwrite,
`none` = remove). -/
def fsSet (fs : FileSys) (nm : String) (v : Option String) : FileSys :=
  fun n => if n = nm then v else fs n

/-- Outcome of the stream-based `SetPermissions` pipeline
(read + validate + optimize + write on the open input), abstracted:
failure of any stage — including password authentication during read —
after having already sent `written` bytes to the sink, or success with
the full output `content`. -/
inductive StageResult where
  | fail (written : String) (msg : String) : StageResult
  | succeed (content : String) : StageResult

/-- `api.SetPermissionsFile`, translated line by line: missing
configuration and open/create failures return early; otherwise the
output is produced into `tmpFile` (which is `inFile + ".tmp"` when
operating in place, i.e. empty `outFile` or `inFile == outFile`); the
deferred cleanup removes `tmpFile` on error in the in-place case and
renames it over `inFile` only on success.  File closes are modelled as
always succeeding. -/
def SetPermissionsFile (fs : FileSys) (inFile outFile : String)
    (confPresent : Bool) (createOk : Bool) (stage : String → StageResult) :
    Except String Unit × FileSys :=
  if ¬confPresent then
    (.error "missing configuration for setting permissions", fs)
  else
    match fs inFile with
    | none => (.error "open failed", fs)
    | some input =>
      let tmpFile := if outFile ≠ "" ∧ inFile ≠ outFile then outFile else inFile ++ ".tmp"
      if ¬createOk then
        (.error "create failed", fs)
      else
        let fs1 := fsSet fs tmpFile (some "")
        let inPlace := outFile = "" ∨ inFile = outFile
        match stage input with
        | .fail written msg =>
          let fs2 := fsSet fs1 tmpFile (some written)
          (.error msg, if inPlace then fsSet fs2 tmpFile none else fs2)
        | .succeed content =>
          let fs2 := fsSet fs1 tmpFile (some content)
          (.ok (), if inPlace then fsSet (fsSet fs2 inFile (some content)) tmpFile none else fs2)

/-- Example file system for the C3 witness: a single encrypted input file. -/
def exampleFs : FileSys :=
  fun n => if n = "in.pdf" then some "ORIG" else none

/-- Example failing pipeline for the C3 witness: password authentication fails
during the read stage after nothing was written to the sink. -/
def exampleStage (_input : String) : StageResult :=
  .fail "" "pdfcpu: please provide the correct password"

/-! ## Split: `writePDFSequence` and the CLI span guard (C4, C5) -/

/-- Trace of one `writePDFSequence` run: the `(from, thru)` page ranges
handed to `writeSpan` in order, and whether a Go integer division by
zero occurred (a runtime panic in Go, recorded here instead of a
value). -/
structure SplitTrace where
  written : List (Int × Int)
  divByZeroPanic : Bool
  deriving DecidableEq, Repr

/-- `api.writePDFSequence`, translated with Go `int` semantics:
`Int.tdiv` / `Int.tmod` truncate toward zero exactly like Go's `/` and
`%`, and `span = 0` is the division-by-zero panic Go raises when the
loop bound `ctx.PageCount / span` is first evaluated — before any span
is written.  `writeSpan`'s file output is abstracted: the trace records
the `(from, thru)` range of each selective write. -/
def writePDFSequence (pageCount span : Int) : SplitTrace :=
  if span = 0 then
    { written := [], divByZeroPanic := true }
  else
    let q := Int.tdiv pageCount span
    let r := Int.tmod pageCount span
    { written :=
        ((List.range q.toNat).map fun i : Nat =>
          ((span * i + 1 : Int), (span * i + span : Int))) ++
        (if 0 < r then [(span * q + 1, span * q + r)] else []),
      divByZeroPanic := false }

/-- The Nat-level image of `writePDFSequence` for `pageCount = P`,
`span = s` with `s ≥ 1`; used to reason about the span list. -/
def spansN (P s : Nat) : List (Nat × Nat) :=
  ((List.range (P / s)).map fun i => (s * i + 1, s * i + s)) ++
  (if 0 < P % s then [(s * (P / s) + 1, s * (P / s) + P % s)] else [])

/-- The span-argument guard of `handleSplitCommand` (cmd package):
`strconv.Atoi` failure (`none`) or a parsed span below one makes the
command exit with a usage failure before any command is processed. -/
def handleSplitSpanCheck (parsedSpan : Option Int) : Except String Int :=
  match parsedSpan with
  | none => .error "split: span is a numeric value >= 1"
  | some s => if s < 1 then .error "split: span is a numeric value >= 1" else .ok s

/-! ## RemovePages (C6) -/

/-- Modelled from the spec: the selective writer for the remove-pages
command writes the document "excluding the given indices" (§4.9); the
writer source is not in this snapshot.  The pages of the result are the
document's pages `1..pageCount` minus the selection. -/
def removePagesWritten (pageCount : Nat) (pages : Finset Nat) : Finset Nat :=
  Finset.Icc 1 pageCount \ pages

/-- `api.RemovePages` after the page selection has been resolved: the
guard `len(pages) >= ctx.PageCount` returns "operation invalid" before
anything is written; otherwise the selective write runs with the
selected pages excluded. -/
def RemovePages (pageCount : Nat) (pages : Finset Nat) :
    Except String (Finset Nat) :=
  if pageCount ≤ pages.card then
    .error "operation invalid"
  else
    .ok (removePagesWritten pageCount pages)

/-! ## Rotate: the CLI rotation guard (C7) -/

/-- Wrap an integer into the two's-complement range of a 64-bit Go
`int`. -/
def wrap64 (i : Int) : Int :=
  (i + 2 ^ 63) % 2 ^ 64 - 2 ^ 63

/-- `abs` from the cmd package on Go's 64-bit `int`: negation of the
minimal value overflows and wraps back to itself. -/
def goAbs (i : Int) : Int :=
  if i < 0 then wrap64 (-i) else i

/-- The rotation guard of `handleRotateCommand` (cmd package): the
parsed rotation is rejected — with exit code 1, before any
transformation or write — exactly when `abs(rotation) % 90 > 0` (Go
`%` is truncated remainder, `Int.tmod`).  `true` means the guard passes
and the rotate command proceeds. -/
def rotationArgAccepted (rotation : Int) : Bool :=
  !(Int.tmod (goAbs rotation) 90 > 0)

/-! ## cli.Process panic recovery (C8) -/

/-- Outcome of running a Go function: normal return, or a panic
carrying the value passed to `panic` (Go < 1.21 permits `panic(nil)`,
modelled as `panicking none`). -/
inductive GoOutcome (α : Type) where
  | norm (a : α) : GoOutcome α
  | panicking (val : Option String) : GoOutcome α
  deriving DecidableEq, Repr

/-- `cli.Process`, translated line by line.  The handler looked up in
`cmdMap` is abstracted as `handler : Option (GoOutcome ...)`: `none`
means no entry for the command mode.  The deferred `recover()` of Go
versions before 1.21 stops any panic and returns the panic value; `err`
is assigned the wrapped message only when that value is non-nil, so a
`panic(nil)` makes `Process` return normally with a nil error. -/
def Process (handler : Option (GoOutcome (List String × Option String))) :
    GoOutcome (List String × Option String) :=
  match handler with
  | none => .norm ([], some "Process: Unknown command mode")
  | some (.norm r) => .norm r
  | some (.panicking (some v)) => .norm ([], some ("unexpected panic attack: " ++ v))
  | some (.panicking none) => .norm ([], none)

/-! ## Validate and ValidateFile (C9) -/

/-- The slice of `pdf.Configuration` that the validation entry points
read. -/
structure Configuration where
  validationMode : ValidationMode
  deriving DecidableEq, Repr

/-- Modelled from the spec: `pdf.NewDefaultConfiguration` (core
package, not in this snapshot); its validation mode is Relaxed. -/
def NewDefaultConfiguration : Configuration :=
  { validationMode := .relaxed }

/-- `api.Validate` on a stream: a nil configuration is replaced by the
default, then mode `ValidationNone` is rejected with an error before
any reading happens; otherwise the read-and-validate pipeline runs,
abstracted as `pipeline`. -/
def Validate (conf : Option Configuration) (pipeline : Except String Unit) :
    Except String Unit :=
  let c := conf.getD NewDefaultConfiguration
  if c.validationMode = .vNone then
    .error "validate: mode == ValidationNone"
  else
    pipeline

/-- `api.ValidateFile`: a nil configuration is replaced by the default;
then — since the configuration is never nil at this point — mode
`ValidationNone` returns success immediately, before the input file is
even opened; otherwise the file is opened and handed to `Validate`. -/
def ValidateFile (inFile : String) (conf : Option Configuration)
    (fs : FileSys) (pipeline : String → Except String Unit) :
    Except String Unit :=
  let c := conf.getD NewDefaultConfiguration
  if c.validationMode = .vNone then
    .ok ()
  else
    match fs inFile with
    | none => .error "open failed"
    | some content => Validate (some c) (pipeline content)

/-! ## Merge version forcing (C10) -/

/-- The version-relevant slice of an `XRefTable`: the header version
and the optional root-override version (both scaled by ten, `15` is PDF
1.5). -/
structure XRefVersion where
  headerVersion : Nat
  rootVersion : Option Nat
  deriving DecidableEq, Repr

/-- `XRefTable.Version()` (core package): the effective version is the
root-override version when present, the header version otherwise
("the header PDF version and optional root-override version", §3). -/
def XRefVersion.effective (x : XRefVersion) : Nat :=
  x.rootVersion.getD x.headerVersion

/-- The version-forcing step at the top of `api.Merge`: when the
destination context's effective version is below 1.5, a root-override
version 1.5 is installed ("Ensure V1.5 for writing object & xref
streams"). -/
def mergeEnsureV15 (dest : XRefVersion) : XRefVersion :=
  if dest.effective < 15 then { dest with rootVersion := some 15 } else dest

/-- Modelled from the spec: `pdf.MergeXRefTables` (core package, not in
this snapshot) splices the source page tree under the destination's and
prefers the destination catalog (§4.9 Merge); it leaves the destination
version fields unchanged. -/
def appendTo (dest : XRefVersion) (_src : XRefVersion) : XRefVersion :=
  dest

/-- `api.Merge` restricted to the version bookkeeping: the destination
context is read from the first input, its version is forced to at least
1.5, and the remaining inputs are merged in one by one. -/
def Merge (destIn : XRefVersion) (srcs : List XRefVersion) : XRefVersion :=
  srcs.foldl appendTo (mergeEnsureV15 destIn)

/-! ## Theorems -/

/-- C9: with `ValidationMode` None the two validation entry points disagree —
the stream-based `Validate` returns the error "validate: mode == ValidationNone"
and runs none of the pipeline, while the file-based `ValidateFile` returns
success immediately for every file system, even one in which the input file does
not exist, so the file is never opened or read. -/
theorem claim_C9 (pipeline : Except String Unit) (inFile : String)
    (fs : FileSys) (filePipeline : String → Except String Unit) :
    Validate (some { validationMode := .vNone }) pipeline =
      .error "validate: mode == ValidationNone" ∧
    ValidateFile inFile (some { validationMode := .vNone }) fs filePipeline = .ok () :=
  ⟨rfl, rfl⟩

/-- C10: `Merge` forces the destination context's effective PDF version to at
least 1.5 before any source is merged in — a root-override version 1.5 is
installed whenever the first input's effective version is lower — so every merge
result is a version ≥ 1.5 document regardless of the input versions. -/
theorem claim_C10 (dest : XRefVersion) (srcs : List XRefVersion) :
    15 ≤ (Merge dest srcs).effective ∧
    (dest.effective < 15 → (Merge dest srcs).rootVersion = some 15) := by
  have hfold : ∀ (l : List XRefVersion) (a : XRefVersion), l.foldl appendTo a = a := by
    intro l
    induction l with
    | nil => intro a; rfl
    | cons h t ih => intro a; simpa [appendTo] using ih a
  constructor
  · rw [Merge, hfold, mergeEnsureV15]
    split
    · simp [XRefVersion.effective]
    · omega
  · intro hlt
    rw [Merge, hfold, mergeEnsureV15, if_pos hlt]

/-- C10 witness: a destination of header version 1.4 and no root override is
forced to effective version 1.5 via a root-override entry. -/
theorem claim_C10_witness :
    15 ≤ (Merge { headerVersion := 14, rootVersion := none } []).effective ∧
    (Merge { headerVersion := 14, rootVersion := none } []).rootVersion = some 15 :=
  ⟨(claim_C10 { headerVersion := 14, rootVersion := none } []).1,
   (claim_C10 { headerVersion := 14, rootVersion := none } []).2 (by decide)⟩

/-- C6: `RemovePages` errors with "operation invalid" — without writing any
output — exactly when the selected page set's size is at least the page count;
otherwise the selective write runs with the selected pages excluded, and the
result keeps at least one page. -/
theorem claim_C6 (pageCount : Nat) (pages : Finset Nat) :
    (RemovePages pageCount pages = .error "operation invalid" ↔
      pageCount ≤ pages.card) ∧
    (∀ out, RemovePages pageCount pages = .ok out →
      out = Finset.Icc 1 pageCount \ pages ∧ 1 ≤ out.card) := by
  constructor
  · constructor
    · intro h
      by_contra hc
      rw [RemovePages, if_neg hc] at h
      exact absurd h (by simp)
    · intro h
      rw [RemovePages, if_pos h]
  · intro out h
    rw [RemovePages] at h
    split at h
    · exact absurd h (by simp)
    · next hc =>
      have hout : out = removePagesWritten pageCount pages := by
        injection h with h2
        exact h2.symm
      refine ⟨by rw [hout]; rfl, ?_⟩
      rw [hout, removePagesWritten]
      have h1 := Finset.le_card_sdiff pages (Finset.Icc 1 pageCount)
      have h2 : (Finset.Icc 1 pageCount).card = pageCount := by
        rw [Nat.card_Icc]
        omega
      omega

/-- C6 witness: removing all of a one-page document is rejected; removing page 1
of a three-page document writes pages {2, 3}. -/
theorem claim_C6_witness :
    RemovePages 1 {1} = .error "operation invalid" ∧
    (({2, 3} : Finset Nat) = Finset.Icc 1 3 \ {1} ∧ 1 ≤ ({2, 3} : Finset Nat).card) :=
  ⟨(claim_C6 1 {1}).1.mpr (by decide),
   (claim_C6 3 {1}).2 {2, 3} (by
     rw [RemovePages, if_neg (by decide), removePagesWritten]
     exact congrArg Except.ok (by decide))⟩

/-- C8 counterexample: a handler that panics with a nil value (legal before Go
1.21) is recovered by `Process`, but since `recover()` returns nil the error is
never assigned: `Process` returns a nil error instead of a wrapped generic error,
contradicting the claim that every handler panic is returned as an error. -/
theorem claim_C8_cex :
    Process (some (.panicking none)) = .norm ([], none) := rfl

/-- C8 (amended): `cli.Process` never propagates a panic — every handler outcome
yields a normal return.  A panic with a non-nil value is surfaced wrapped as the
generic "unexpected panic attack" error; a panic with a nil value is swallowed
and `Process` returns a nil error. -/
theorem claim_C8 (handler : Option (GoOutcome (List String × Option String))) :
    (∃ out err, Process handler = .norm (out, err)) ∧
    (∀ v, handler = some (.panicking (some v)) →
      Process handler = .norm ([], some ("unexpected panic attack: " ++ v))) ∧
    (handler = some (.panicking none) → Process handler = .norm ([], none)) := by
  refine ⟨?_, ?_, ?_⟩
  · match handler with
    | none => exact ⟨[], some "Process: Unknown command mode", rfl⟩
    | some (.norm (out, err)) => exact ⟨out, err, rfl⟩
    | some (.panicking (some v)) =>
      exact ⟨[], some ("unexpected panic attack: " ++ v), rfl⟩
    | some (.panicking none) => exact ⟨[], none, rfl⟩
  · intro v hv
    subst hv
    rfl
  · intro hv
    subst hv
    rfl

/-- C8 witness: a handler panicking with the value "boom" makes `Process` return
normally with the wrapped generic error. -/
theorem claim_C8_witness :
    Process (some (.panicking (some "boom"))) =
      .norm ([], some ("unexpected panic attack: " ++ "boom")) :=
  (claim_C8 (some (.panicking (some "boom")))).2.1 "boom" rfl

/-- C1 counterexample: a Relaxed-mode document whose catalog has PieceInfo and
whose Info dictionary is present (here: empty, hence without ModDate) fails
validation with the missing-ModDate error — the check in
`validateDocumentInfoObject` carries no validation-mode test, so Relaxed mode
does not accept the quirk as the claim states. -/
theorem claim_C1_cex :
    validateDocumentInfoObject (fun _ => true)
      { mode := .relaxed, version := 17, info := some [], catalogHasPieceInfo := true } =
      .error "validateDocumentInfoObject: missing required entry ModDate" := rfl

/-- When no entry of the dictionary has key ModDate, the info-dict walk can only
return the `hasModDate` flag it started with. -/
theorem validateDocumentInfoDictLoop_no_moddate (dateOk : String → Bool) (x : XRef) :
    ∀ (d : Dict) (acc b : Bool), (∀ p ∈ d, p.1 ≠ "ModDate") →
      validateDocumentInfoDictLoop dateOk x acc d = .ok b → b = acc := by
  intro d
  induction d with
  | nil =>
    intro acc b _ h
    rw [validateDocumentInfoDictLoop] at h
    injection h with h2
    exact h2.symm
  | cons p rest ih =>
    intro acc b hno h
    obtain ⟨k, v⟩ := p
    have hk : k ≠ "ModDate" := hno (k, v) (List.mem_cons_self _ _)
    rw [validateDocumentInfoDictLoop] at h
    cases he : validateInfoDictEntry dateOk x k v with
    | error e =>
      rw [he] at h
      cases h
    | ok u =>
      rw [he] at h
      have hbeq : (k == "ModDate") = false := by
        simpa using hk
      rw [hbeq, Bool.or_false] at h
      exact ih acc b (fun q hq => hno q (List.mem_cons_of_mem _ hq)) h

/-- C1 (amended): for every document whose catalog contains a PieceInfo entry and
whose Info dictionary is present but has no ModDate key, validation fails — in
Relaxed mode exactly as in Strict — because the missing-ModDate check of
`validateDocumentInfoObject` runs in every validation mode; only documents with
no Info object at all escape it. -/
theorem claim_C1 (dateOk : String → Bool) (x : XRef) (d : Dict)
    (hinfo : x.info = some d) (hpiece : x.catalogHasPieceInfo = true)
    (hmod : ∀ p ∈ d, p.1 ≠ "ModDate") :
    ∃ e, validateDocumentInfoObject dateOk x = .error e := by
  simp only [validateDocumentInfoObject, hinfo]
  cases hd : validateDocumentInfoDict dateOk x d with
  | error e => exact ⟨e, by simp only [hd]⟩
  | ok b =>
    have hb : b = false :=
      validateDocumentInfoDictLoop_no_moddate dateOk x d false b hmod hd
    subst hb
    refine ⟨"validateDocumentInfoObject: missing required entry ModDate", ?_⟩
    simp only [hd, CatalogHasPieceInfo, hpiece]
    simp

/-- C1 witness: a concrete Relaxed-mode document with PieceInfo and an Info
dictionary holding only a Title entry fails validation. -/
theorem claim_C1_witness :
    ∃ e, validateDocumentInfoObject (fun _ => true)
      { mode := .relaxed, version := 17, info := some [("Title", .stringLit "t")],
        catalogHasPieceInfo := true } = .error e :=
  claim_C1 (fun _ => true) _ [("Title", .stringLit "t")] rfl rfl (by decide)

/-- C2 counterexample: in Relaxed mode the Trapped value `/TRUE` — a
case-insensitive spelling of the name True — is rejected: the name test knows
only the exact spellings True/False/Unknown/true/false/unknown, and the boolean
fallback then fails on a name, so the claim's "a case-insensitive spelling of one
of these names is also accepted" is false. -/
theorem claim_C2_cex :
    validateInfoDictTrapped (.name "TRUE")
      { mode := .relaxed, version := 17, info := none, catalogHasPieceInfo := false } =
      .error "not a boolean" := rfl

/-- In strict mode (for a document that passes the version gate) the Trapped
validator reduces to the name test over {True, False, Unknown}. -/
theorem trapped_strict_eq (x : XRef) (hm : x.mode = .strict) (hgate : ¬ x.version < 13)
    (o : PdfObj) :
    validateInfoDictTrapped o x =
      (match o with
       | .name s =>
         if MemberOf s ["True", "False", "Unknown"] then .ok ()
         else .error ("invalid name: " ++ s)
       | _ => .error "not a name") := by
  cases o <;>
    simp only [validateInfoDictTrapped, DereferenceName, DereferenceBoolean,
      validateVersion, hm, hgate, and_false, if_false, reduceCtorEq, ite_false]
  case name s =>
    by_cases hc : MemberOf s ["True", "False", "Unknown"] = true
    · simp [hc]
    · simp [hc]

/-- In relaxed mode the Trapped validator reduces to the six-name test with a
boolean fallback. -/
theorem trapped_relaxed_eq (x : XRef) (hm : x.mode = .relaxed) (o : PdfObj) :
    validateInfoDictTrapped o x =
      (match o with
       | .name s =>
         if MemberOf s ["True", "False", "Unknown", "true", "false", "unknown"] then .ok ()
         else .error "not a boolean"
       | .boolean _ => .ok ()
       | _ => .error "not a boolean") := by
  cases o <;>
    simp only [validateInfoDictTrapped, DereferenceName, DereferenceBoolean,
      validateVersion, hm, reduceCtorEq, false_and, if_false, ite_false, if_true, ite_true]
  case name s =>
    by_cases hc : MemberOf s ["True", "False", "Unknown", "true", "false", "unknown"] = true
    · simp [hc]
    · simp [hc]

/-- C2 (amended): for a Trapped value in a document of version at least 1.3: in
Strict mode the value validates iff it is a name among True, False, Unknown; in
Relaxed mode it validates iff it is a name among exactly True, False, Unknown,
true, false, unknown — the lowercase spellings, not arbitrary case-insensitive
ones — or any boolean in place of the name. -/
theorem claim_C2 (x : XRef) (o : PdfObj) (hv : 13 ≤ x.version) :
    (x.mode = .strict →
      (validateInfoDictTrapped o x = .ok () ↔
        o = .name "True" ∨ o = .name "False" ∨ o = .name "Unknown")) ∧
    (x.mode = .relaxed →
      (validateInfoDictTrapped o x = .ok () ↔
        o = .name "True" ∨ o = .name "False" ∨ o = .name "Unknown" ∨
        o = .name "true" ∨ o = .name "false" ∨ o = .name "unknown" ∨
        ∃ b, o = .boolean b)) := by
  have hgate : ¬ x.version < 13 := by omega
  constructor
  · intro hm
    rw [trapped_strict_eq x hm hgate o]
    cases o <;> simp
    case name s =>
      by_cases h1 : s = "True" <;> by_cases h2 : s = "False" <;>
        by_cases h3 : s = "Unknown" <;>
        simp [MemberOf, h1, h2, h3]
  · intro hm
    rw [trapped_relaxed_eq x hm o]
    cases o <;> simp
    case name s =>
      by_cases h1 : s = "True" <;> by_cases h2 : s = "False" <;>
        by_cases h3 : s = "Unknown" <;> by_cases h4 : s = "true" <;>
        by_cases h5 : s = "false" <;> by_cases h6 : s = "unknown" <;>
        simp [MemberOf, h1, h2, h3, h4, h5, h6]

/-- C2 witness: in a strict-mode version-1.7 document the Trapped name `/True`
validates. -/
theorem claim_C2_witness :
    validateInfoDictTrapped (.name "True")
      { mode := .strict, version := 17, info := none, catalogHasPieceInfo := false } =
      .ok () :=
  ((claim_C2 { mode := .strict, version := 17, info := none, catalogHasPieceInfo := false }
    (.name "True") (by decide)).1 rfl).mpr (Or.inl rfl)

/-- C7 counterexample: the rotation value -2^63 (the minimal 64-bit Go int,
accepted by `strconv.Atoi` on 64-bit platforms) is not a multiple of 90, yet the
rotate command's guard passes it: `abs` overflows back to -2^63 and Go's
truncated remainder of a negative dividend is ≤ 0, so `abs(rotation)%90 > 0` is
false and no rejection happens. -/
theorem claim_C7_cex :
    rotationArgAccepted (-(2 ^ 63)) = true ∧ ¬((-(2 ^ 63) : Int) % 90 = 0) := by
  decide

/-- C7 (amended): over the 64-bit Go int domain, `handleRotateCommand`'s guard
passes exactly the multiples of 90 — including 0 and negative multiples —
together with the single value -2^63, whose `abs` overflows back to itself and
slips through the `abs(rotation)%90 > 0` test; every other value that is not a
multiple of 90 is rejected as a usage failure before any transformation or write
runs. -/
theorem claim_C7 (r : Int) (hlo : -(2 ^ 63) ≤ r) (hhi : r < 2 ^ 63) :
    rotationArgAccepted r = true ↔ r % 90 = 0 ∨ r = -(2 ^ 63) := by
  by_cases hmin : r = -(2 ^ 63)
  · subst hmin
    exact ⟨fun _ => Or.inr rfl, fun _ => by decide⟩
  · have hne : (90 : Int) ≠ 0 := by decide
    rw [rotationArgAccepted, goAbs]
    by_cases hneg : r < 0
    · have h1 : 0 < -r := by omega
      have h2 : -r < 2 ^ 63 := by omega
      have hwrap : wrap64 (-r) = -r := by
        rw [wrap64]
        have : (-r + 2 ^ 63) % 2 ^ 64 = -r + 2 ^ 63 := by
          apply Int.emod_eq_of_lt <;> omega
        omega
      rw [if_pos hneg, hwrap]
      rw [Int.tmod_eq_emod (by omega) (by decide)]
      have hnn : 0 ≤ (-r) % 90 := Int.emod_nonneg _ hne
      constructor
      · intro h
        have hz : (-r) % 90 = 0 := by
          simp only [Bool.not_eq_true', decide_eq_false_iff_not, not_lt] at h
          omega
        have : (90 : Int) ∣ r := Int.dvd_neg.mp (Int.dvd_of_emod_eq_zero hz)
        exact Or.inl (Int.emod_eq_zero_of_dvd this)
      · intro h
        rcases h with h | h
        · have : (90 : Int) ∣ -r := Int.dvd_neg.mpr (Int.dvd_of_emod_eq_zero h)
          have hz : (-r) % 90 = 0 := Int.emod_eq_zero_of_dvd this
          simp [hz]
        · exact absurd h hmin
    · rw [if_neg hneg]
      rw [Int.tmod_eq_emod (by omega) (by decide)]
      have hnn : 0 ≤ r % 90 := Int.emod_nonneg _ hne
      constructor
      · intro h
        simp only [Bool.not_eq_true', decide_eq_false_iff_not, not_lt] at h
        exact Or.inl (by omega)
      · intro h
        rcases h with h | h
        · simp [h]
        · exact absurd h hmin

/-- C7 witness: 450 and -90 are multiples of 90 and both pass the guard. -/
theorem claim_C7_witness :
    rotationArgAccepted 450 = true ∧ rotationArgAccepted (-90) = true :=
  ⟨(claim_C7 450 (by decide) (by decide)).mpr (Or.inl (by decide)),
   (claim_C7 (-90) (by decide) (by decide)).mpr (Or.inl (by decide))⟩

/-- C5 counterexample: `writePDFSequence` performs no span check — with span 0 it
crashes on Go's integer division by zero instead of failing with an InvalidSpan
error, and with the negative span -3 on a 7-page context it even writes an
output file (the single range (7,7)), so the claim's "does not crash and does
not write anything" is false at the library level. -/
theorem claim_C5_cex :
    (writePDFSequence 7 0).divByZeroPanic = true ∧
    (writePDFSequence 7 (-3)).written = [(7, 7)] := by
  decide

/-- C5 (amended): a span below one supplied as the CLI split span argument is
rejected by `handleSplitCommand` as a usage failure, with no output produced;
the library-level `writePDFSequence` itself does not validate the span: span 0
hits Go's integer division by zero — a runtime panic, not an InvalidSpan error —
before writing anything, and a negative span can even produce output. -/
theorem claim_C5 (s : Int) (hs : s < 1) (pageCount : Int) :
    handleSplitSpanCheck (some s) = .error "split: span is a numeric value >= 1" ∧
    (writePDFSequence pageCount 0).divByZeroPanic = true ∧
    (writePDFSequence pageCount 0).written = [] := by
  refine ⟨?_, rfl, rfl⟩
  rw [handleSplitSpanCheck]
  simp [hs]

/-- C5 witness: span 0 is rejected by the CLI guard, and `writePDFSequence` on a
5-page context with span 0 panics without writing. -/
theorem claim_C5_witness :
    handleSplitSpanCheck (some 0) = .error "split: span is a numeric value >= 1" ∧
    (writePDFSequence 5 0).divByZeroPanic = true ∧
    (writePDFSequence 5 0).written = [] :=
  claim_C5 0 (by decide) 5

/-- No file name equals itself extended by the ".tmp" suffix. -/
theorem inFile_ne_tmp (inFile : String) : inFile ≠ inFile ++ ".tmp" := by
  intro h
  have h2 := congrArg String.length h
  rw [String.length_append] at h2
  have : (".tmp" : String).length = 4 := rfl
  omega

/-- C3: when `SetPermissionsFile` operates in place (empty output name, or
output equal to input), every failing run — including a password authentication
failure inside the pipeline — returns the error and leaves the input file
unchanged, with the temporary file `inFile + ".tmp"` removed (or never created);
on success the full output content is renamed over the input, which happens only
after every stage has succeeded. -/
theorem claim_C3 (fs : FileSys) (inFile outFile : String) (confPresent createOk : Bool)
    (stage : String → StageResult) (hip : outFile = "" ∨ outFile = inFile) :
    (∀ e, (SetPermissionsFile fs inFile outFile confPresent createOk stage).1 = .error e →
      (SetPermissionsFile fs inFile outFile confPresent createOk stage).2 inFile = fs inFile ∧
      ((SetPermissionsFile fs inFile outFile confPresent createOk stage).2 (inFile ++ ".tmp") = none ∨
       (SetPermissionsFile fs inFile outFile confPresent createOk stage).2 (inFile ++ ".tmp") =
         fs (inFile ++ ".tmp"))) ∧
    ((SetPermissionsFile fs inFile outFile confPresent createOk stage).1 = .ok () →
      ∃ input content, fs inFile = some input ∧ stage input = .succeed content ∧
        (SetPermissionsFile fs inFile outFile confPresent createOk stage).2 inFile = some content ∧
        (SetPermissionsFile fs inFile outFile confPresent createOk stage).2 (inFile ++ ".tmp") = none) := by
  have hcond : ¬(outFile ≠ "" ∧ inFile ≠ outFile) := by
    rcases hip with h | h
    · intro hc
      exact hc.1 h
    · intro hc
      exact hc.2 h.symm
  have hplace : outFile = "" ∨ inFile = outFile := by
    rcases hip with h | h
    · exact Or.inl h
    · exact Or.inr h.symm
  have hneq := inFile_ne_tmp inFile
  cases confPresent with
  | false => simp [SetPermissionsFile]
  | true =>
    cases hopen : fs inFile with
    | none => simp [SetPermissionsFile, hopen]
    | some input =>
      cases createOk with
      | false => simp [SetPermissionsFile, hopen]
      | true =>
        cases hstage : stage input with
        | fail written msg =>
          simp only [SetPermissionsFile, hopen, hstage, if_neg hcond, if_pos hplace]
          refine ⟨fun e _ => ⟨?_, Or.inl ?_⟩, fun h => by simp at h⟩
          · simp [fsSet, hneq, hopen]
          · simp [fsSet]
        | succeed content =>
          simp only [SetPermissionsFile, hopen, hstage, if_neg hcond, if_pos hplace]
          refine ⟨fun e he => by simp at he, fun _ => ?_⟩
          refine ⟨input, content, rfl, hstage, ?_, ?_⟩
          · simp [fsSet, hneq]
          · simp [fsSet]

/-- C3 witness: an in-place `SetPermissionsFile` run whose pipeline fails with an
authentication error leaves "in.pdf" unchanged and no temporary file behind. -/
theorem claim_C3_witness :
    (SetPermissionsFile exampleFs "in.pdf" "" true true exampleStage).2 "in.pdf" =
      exampleFs "in.pdf" ∧
    ((SetPermissionsFile exampleFs "in.pdf" "" true true exampleStage).2 ("in.pdf" ++ ".tmp") = none ∨
     (SetPermissionsFile exampleFs "in.pdf" "" true true exampleStage).2 ("in.pdf" ++ ".tmp") =
       exampleFs ("in.pdf" ++ ".tmp")) :=
  (claim_C3 exampleFs "in.pdf" "" true true exampleStage (Or.inl rfl)).1
    "pdfcpu: please provide the correct password" rfl

/-- The number of spans is the ceiling of pageCount / span. -/
theorem spansN_length (P s : Nat) (hs : 0 < s) :
    (spansN P s).length = (P + s - 1) / s := by
  have hmod : P % s < s := Nat.mod_lt _ hs
  have hP : s * (P / s) + P % s = P := Nat.div_add_mod P s
  rcases Nat.eq_zero_or_pos (P % s) with h | h
  · rw [spansN, if_neg (by omega)]
    simp only [List.length_append, List.length_map, List.length_range, List.length_nil,
      Nat.add_zero]
    have hrw : P + s - 1 = s * (P / s) + (s - 1) := by omega
    rw [hrw, Nat.mul_add_div hs, Nat.div_eq_of_lt (show s - 1 < s by omega), Nat.add_zero]
  · rw [spansN, if_pos h]
    simp only [List.length_append, List.length_map, List.length_range, List.length_cons,
      List.length_nil]
    have hrw : P + s - 1 = s * (P / s) + (P % s + s - 1) := by omega
    rw [hrw, Nat.mul_add_div hs]
    have h1 : (P % s + s - 1) / s = 1 :=
      Nat.div_eq_of_lt_le (by omega) (by omega)
    omega

/-- The k-th span is the consecutive range from s*k+1 through min (s*(k+1)) P. -/
theorem spansN_get? (P s : Nat) (hs : 0 < s) (k : Nat)
    (hk : k < (spansN P s).length) :
    (spansN P s)[k]? = some (s * k + 1, min (s * (k + 1)) P) := by
  have hP : s * (P / s) + P % s = P := Nat.div_add_mod P s
  have hmod : P % s < s := Nat.mod_lt _ hs
  rw [spansN] at hk ⊢
  by_cases hlt : k < P / s
  · rw [List.getElem?_append_left (by simpa using hlt)]
    rw [List.getElem?_map, List.getElem?_range hlt]
    have hle : s * (k + 1) ≤ P := by
      have h1 : k + 1 ≤ P / s := hlt
      have h2 : s * (k + 1) ≤ s * (P / s) := Nat.mul_le_mul_left s h1
      omega
    rw [min_eq_left hle]
    have hmul : s * (k + 1) = s * k + s := Nat.mul_succ s k
    simp [hmul]
  · have hr : 0 < P % s := by
      by_contra hr0
      rw [if_neg (by omega)] at hk
      simp at hk
      omega
    rw [if_pos hr] at hk ⊢
    have hkq : k = P / s := by
      simp only [List.length_append, List.length_map, List.length_range, List.length_cons,
        List.length_nil] at hk
      omega
    rw [List.getElem?_append_right (by simpa using Nat.not_lt.mp hlt)]
    subst hkq
    simp only [List.length_map, List.length_range, Nat.sub_self]
    rw [List.getElem?_cons_zero]
    have hmul : s * (P / s + 1) = s * (P / s) + s := Nat.mul_succ s (P / s)
    have hPlt : P < s * (P / s + 1) := by omega
    rw [min_eq_right (Nat.le_of_lt hPlt)]
    simp only [Option.some.injEq, Prod.mk.injEq]
    exact ⟨trivial, by omega⟩

/-- Counting a single value over an initial segment of the naturals. -/
theorem range_countP_eq (m k0 : Nat) :
    (List.range m).countP (fun i => decide (i = k0)) = if k0 < m then 1 else 0 := by
  induction m with
  | zero => simp
  | succ n ih =>
    rw [List.range_succ, List.countP_append, ih]
    simp only [List.countP_cons, List.countP_nil, decide_eq_true_eq]
    by_cases h : n = k0
    · subst h
      simp [Nat.lt_irrefl, Nat.lt_succ_self]
    · rw [if_neg h]
      by_cases h2 : k0 < n
      · rw [if_pos h2, if_pos (by omega)]
      · rw [if_neg h2, if_neg (by omega)]

/-- Every page 1..P lies in exactly one span. -/
theorem spansN_countP (P s : Nat) (hs : 0 < s) (p : Nat) (hp1 : 1 ≤ p) (hpP : p ≤ P) :
    (spansN P s).countP (fun pr => decide (pr.1 ≤ p ∧ p ≤ pr.2)) = 1 := by
  have hP : s * (P / s) + P % s = P := Nat.div_add_mod P s
  have hmod : P % s < s := Nat.mod_lt _ hs
  have hk0le : s * ((p - 1) / s) ≤ p - 1 := by
    have h := Nat.div_mul_le_self (p - 1) s
    simpa [Nat.mul_comm] using h
  have hk0mul : s * ((p - 1) / s + 1) = s * ((p - 1) / s) + s := Nat.mul_succ s ((p - 1) / s)
  have hk0lt : p - 1 < s * ((p - 1) / s + 1) := by
    have h1 := Nat.div_add_mod (p - 1) s
    have h2 : (p - 1) % s < s := Nat.mod_lt _ hs
    omega
  rw [spansN, List.countP_append, List.countP_map]
  have hcongr : ∀ i ∈ List.range (P / s),
      ((fun pr : Nat × Nat => decide (pr.1 ≤ p ∧ p ≤ pr.2)) ∘ fun i => (s * i + 1, s * i + s)) i ↔
        (fun i => decide (i = (p - 1) / s)) i := by
    intro i _
    simp only [Function.comp_apply, decide_eq_true_eq]
    constructor
    · rintro ⟨ha, hb⟩
      have hmuli : s * (i + 1) = s * i + s := Nat.mul_succ s i
      have hlo : i * s ≤ p - 1 := by
        rw [Nat.mul_comm]
        omega
      have hhi : p - 1 < (i + 1) * s := by
        rw [Nat.mul_comm]
        omega
      exact (Nat.div_eq_of_lt_le hlo hhi).symm
    · rintro rfl
      constructor
      · omega
      · omega
  rw [List.countP_congr hcongr, range_countP_eq]
  by_cases hcase : (p - 1) / s < P / s
  · rw [if_pos hcase]
    have hmono : s * ((p - 1) / s + 1) ≤ s * (P / s) :=
      Nat.mul_le_mul_left s hcase
    rcases Nat.eq_zero_or_pos (P % s) with h0 | h0
    · rw [if_neg (by omega)]
      rfl
    · rw [if_pos h0]
      have hpred : ¬(s * (P / s) + 1 ≤ p ∧ p ≤ s * (P / s) + P % s) := by
        intro hc
        omega
      simp [hpred]
  · rw [if_neg hcase]
    have hmono : s * (P / s) ≤ s * ((p - 1) / s) :=
      Nat.mul_le_mul_left s (Nat.not_lt.mp hcase)
    have h0 : 0 < P % s := by
      rcases Nat.eq_zero_or_pos (P % s) with h0 | h0
      · omega
      · exact h0
    rw [if_pos h0]
    have hpred : s * (P / s) + 1 ≤ p ∧ p ≤ s * (P / s) + P % s := by
      constructor
      · omega
      · omega
    simp [hpred]

/-- For a positive span, `writePDFSequence` neither panics nor writes anything
beyond the casted Nat-level span list. -/
theorem writePDFSequence_eq (P s : Nat) (hs : 0 < s) :
    writePDFSequence (P : Int) (s : Int) =
      { written := (spansN P s).map fun pr => ((pr.1 : Int), (pr.2 : Int)),
        divByZeroPanic := false } := by
  have hs0 : ((s : Int)) ≠ 0 := by
    have := Nat.pos_iff_ne_zero.mp hs
    exact_mod_cast this
  rw [writePDFSequence, if_neg hs0]
  have htdiv : Int.tdiv (P : Int) (s : Int) = ((P / s : Nat) : Int) := (Int.ofNat_tdiv P s).symm
  have htmod : Int.tmod (P : Int) (s : Int) = ((P % s : Nat) : Int) := (Int.ofNat_tmod P s).symm
  simp only [htdiv, htmod, Int.toNat_ofNat]
  congr 1
  rw [spansN, List.map_append, List.map_map]
  congr 1
  by_cases h : 0 < P % s
  · rw [if_pos h, if_pos (by exact_mod_cast h)]
    simp only [List.map_cons, List.map_nil, Function.comp_apply]
    push_cast
    rfl
  · rw [if_neg h, if_neg (by exact_mod_cast h)]
    rfl

/-- C4: for every context with page count P ≥ 1 and span s ≥ 1, `writePDFSequence`
performs ceil(P/s) selective writes (no division-by-zero panic), the k-th of
which selects the consecutive range from s*k+1 through min(s*(k+1), P) — so the
ranges are {1..s}, {s+1..2s}, ... in ascending page order, with the final range
ending at P (of size P mod s when s does not divide P) — and every page 1..P
appears in exactly one written range. -/
theorem claim_C4 (P s : Int) (hP : 1 ≤ P) (hs : 1 ≤ s) :
    (writePDFSequence P s).divByZeroPanic = false ∧
    ((writePDFSequence P s).written.length : Int) = (P + s - 1).tdiv s ∧
    (∀ k : Nat, k < (writePDFSequence P s).written.length →
      (writePDFSequence P s).written[k]? =
        some (s * k + 1, min (s * (k + 1)) P)) ∧
    (∀ p : Int, 1 ≤ p → p ≤ P →
      (writePDFSequence P s).written.countP
        (fun pr => decide (pr.1 ≤ p ∧ p ≤ pr.2)) = 1) := by
  obtain ⟨Pn, rfl⟩ : ∃ n : Nat, P = (n : Int) := ⟨P.toNat, (Int.toNat_of_nonneg (by omega)).symm⟩
  obtain ⟨sn, rfl⟩ : ∃ n : Nat, s = (n : Int) := ⟨s.toNat, (Int.toNat_of_nonneg (by omega)).symm⟩
  have hPn : 1 ≤ Pn := by exact_mod_cast hP
  have hsn : 0 < sn := by exact_mod_cast hs
  rw [writePDFSequence_eq Pn sn hsn]
  refine ⟨rfl, ?_, ?_, ?_⟩
  · simp only [List.length_map]
    rw [spansN_length Pn sn hsn]
    have hcast : (Pn : Int) + (sn : Int) - 1 = ((Pn + sn - 1 : Nat) : Int) := by
      have : 1 ≤ Pn + sn := by omega
      push_cast [this]
      ring
    rw [hcast, ← Int.ofNat_tdiv]
  · intro k hk
    simp only [List.length_map] at hk
    rw [List.getElem?_map, spansN_get? Pn sn hsn k hk]
    simp only [Option.map_some']
    push_cast
    rfl
  · intro p hp1 hpP
    obtain ⟨pn, rfl⟩ : ∃ n : Nat, p = (n : Int) :=
      ⟨p.toNat, (Int.toNat_of_nonneg (by omega)).symm⟩
    have hpn1 : 1 ≤ pn := by exact_mod_cast hp1
    have hpnP : pn ≤ Pn := by exact_mod_cast hpP
    rw [List.countP_map]
    have hcongr : ∀ x ∈ spansN Pn sn,
        ((fun pr : Int × Int => decide (pr.1 ≤ (pn : Int) ∧ (pn : Int) ≤ pr.2)) ∘
          fun pr : Nat × Nat => ((pr.1 : Int), (pr.2 : Int))) x ↔
          (fun pr : Nat × Nat => decide (pr.1 ≤ pn ∧ pn ≤ pr.2)) x := by
      intro x _
      simp only [Function.comp_apply, decide_eq_true_eq]
      constructor
      · rintro ⟨h1, h2⟩
        exact ⟨by exact_mod_cast h1, by exact_mod_cast h2⟩
      · rintro ⟨h1, h2⟩
        exact ⟨by exact_mod_cast h1, by exact_mod_cast h2⟩
    rw [List.countP_congr hcongr]
    exact spansN_countP Pn sn hsn pn hpn1 hpnP

/-- C4 witness: a 7-page context split with span 3 produces ceil(7/3) = 3 writes
and page 7 lies in exactly one of them. -/
theorem claim_C4_witness :
    (writePDFSequence 7 3).written.countP
      (fun pr => decide (pr.1 ≤ 7 ∧ 7 ≤ pr.2)) = 1 ∧
    ((writePDFSequence 7 3).written.length : Int) = (7 + 3 - 1 : Int).tdiv 3 :=
  ⟨(claim_C4 7 3 (by decide) (by decide)).2.2.2 7 (by decide) (by decide),
   (claim_C4 7 3 (by decide) (by decide)).2.1⟩

end Pdfcpu
